import Mathlib

/-!
Verification of the dottorrent torrent-descriptor decoder.

Shallow embedding of `src/hash.rs` and `src/torrent.rs`.  Byte strings are
lists of byte values (`List Nat`, each element below 256 on real inputs).
The external collaborators that the crate excludes from its core (the
bencode byte parser, the URL parser `url::Url::parse` and the host parser
`url::Host::parse`) are modelled as function parameters: the decoder only
ever runs them and pattern-matches success against failure, which is all
the source does with them.  UTF8 validation (`std::str::from_utf8`) is
modelled concretely by `validUtf8`.
-/

set_option autoImplicit false

namespace Dottorrent

/-- A byte string: the contents of a bencode `ByteString`. -/
abbrev ByteStr := List Nat

/-- The result type of the external URL parser, kept opaque: the decoder
never inspects a parsed URL, so we represent it by the bytes the parser was
given. -/
abbrev Url := ByteStr

/-- The result type of the external host parser (`url::Host`), kept opaque
for the same reason as `Url`. -/
abbrev Host := ByteStr

/-- Model of the external bencode value tree (`bencode::Bencode`): byte
strings, numbers (`i64`, modelled as `Int`), lists and dictionaries keyed by
byte strings. -/
inductive Bencode where
  | bstr (s : ByteStr)
  | num (n : Int)
  | list (l : List Bencode)
  | dict (d : List (ByteStr × Bencode))

/-- A bencode dictionary: association list keyed by byte strings (the
source's `BTreeMap<ByteString, Bencode>`; the decoder only calls `get`). -/
abbrev BDict := List (ByteStr × Bencode)

/-- Lookup as `hm.get(key)` on a bencode dictionary: first entry with that key. -/
def lookupBD (d : BDict) (k : ByteStr) : Option Bencode :=
  match d with
  | [] => none
  | (k', v) :: rest => if k' = k then some v else lookupBD rest k

/-- Generic association-list lookup, used for the directory tree mapping. -/
def lookupKey {α : Type} (l : List (ByteStr × α)) (k : ByteStr) : Option α :=
  match l with
  | [] => none
  | (k', v) :: rest => if k' = k then some v else lookupKey rest k

/-- Replace the value stored under key `k` (used to write back a mutated
child directory, the in-place mutation of the source's `HashMap`). -/
def updateKey {α : Type} (l : List (ByteStr × α)) (k : ByteStr) (v : α) :
    List (ByteStr × α) :=
  match l with
  | [] => []
  | (k', v') :: rest =>
    if k' = k then (k', v) :: rest else (k', v') :: updateKey rest k v

/-- Whether `b` is in the closed range `lo..hi`. -/
def inRange (lo hi b : Nat) : Bool :=
  if lo ≤ b ∧ b ≤ hi then true else false

/-- A UTF8 continuation byte, `0x80..0xBF`. -/
def contByte (b : Nat) : Bool := inRange 128 191 b

/-- Whether a byte sequence is valid UTF8, as `std::str::from_utf8` checks
it: ASCII, 2-byte `C2..DF`, 3-byte `E0 A0..BF`, `E1..EC`, `ED 80..9F`
(no surrogates), `EE..EF`, 4-byte `F0 90..BF`, `F1..F3`, `F4 80..8F`. -/
def validUtf8 : List Nat → Bool
  | [] => true
  | b :: rest =>
    if b ≤ 127 then validUtf8 rest
    else if inRange 194 223 b then
      match rest with
      | c1 :: rest' => contByte c1 && validUtf8 rest'
      | [] => false
    else if b = 224 then
      match rest with
      | c1 :: c2 :: rest' => inRange 160 191 c1 && contByte c2 && validUtf8 rest'
      | _ => false
    else if inRange 225 236 b || b = 238 || b = 239 then
      match rest with
      | c1 :: c2 :: rest' => contByte c1 && contByte c2 && validUtf8 rest'
      | _ => false
    else if b = 237 then
      match rest with
      | c1 :: c2 :: rest' => inRange 128 159 c1 && contByte c2 && validUtf8 rest'
      | _ => false
    else if b = 240 then
      match rest with
      | c1 :: c2 :: c3 :: rest' =>
        inRange 144 191 c1 && contByte c2 && contByte c3 && validUtf8 rest'
      | _ => false
    else if inRange 241 243 b then
      match rest with
      | c1 :: c2 :: c3 :: rest' =>
        contByte c1 && contByte c2 && contByte c3 && validUtf8 rest'
      | _ => false
    else if b = 244 then
      match rest with
      | c1 :: c2 :: c3 :: rest' =>
        inRange 128 143 c1 && contByte c2 && contByte c3 && validUtf8 rest'
      | _ => false
    else false

/-- Model of `ToPrimitive::to_u64` on a bencode number: succeeds exactly on the
unsigned 64-bit range. -/
def toU64 (n : Int) : Option Nat :=
  if 0 ≤ n ∧ n < 2 ^ 64 then some n.toNat else none

/-- Model of `ToPrimitive::to_u16` on a bencode number: succeeds exactly on the
unsigned 16-bit range. -/
def toU16 (n : Int) : Option Nat :=
  if 0 ≤ n ∧ n < 2 ^ 16 then some n.toNat else none

/-! ### Embedding of `src/hash.rs`: the SHA-1 digest container -/

/-- The digest container `Sha1Hash`: a 20-byte buffer (`hash: [u8; 20]`). -/
structure Sha1Hash where
  hash : ByteStr
deriving DecidableEq, Repr

/-- The error `InvalidHashLength(usize)`: the failure of `Sha1Hash::from_buffer`,
carrying the offending length. -/
structure InvalidHashLength where
  len : Nat
deriving DecidableEq, Repr

/-- The constructor `Sha1Hash::from_buffer`: succeeds exactly when the slice has 20 bytes,
copying them all (the source copies elementwise into the fixed buffer). -/
def Sha1Hash.from_buffer (s : ByteStr) : Except InvalidHashLength Sha1Hash :=
  if s.length = 20 then .ok ⟨s⟩ else .error ⟨s.length⟩

/-- One lowercase hexadecimal digit, `0..15` to `0..9a..f`. -/
def hexDigitChar (n : Nat) : Char :=
  if n < 10 then Char.ofNat (48 + n) else Char.ofNat (87 + n)

/-- Rendering of one byte by `write!(f, "\x7b:02x\x7d", b)`: two lowercase hex digits. -/
def byteHex (b : Nat) : List Char :=
  [hexDigitChar (b / 16), hexDigitChar (b % 16)]

/-- The `fmt::Debug` rendering of a digest: every byte as two lowercase hex
digits, concatenated with no separators. -/
def Sha1Hash.debugHex (h : Sha1Hash) : List Char :=
  h.hash.flatMap byteHex

/-- The sixteen lowercase hexadecimal digit characters. -/
def lowerHexChars : List Char :=
  "0123456789abcdef".toList

/-! ### Embedding of `src/torrent.rs`: the domain model and the error taxonomy -/

/-- A node in the decoded directory structure (`TorrentDirTreeNode`):
a file leaf with its size, or a directory mapping names to child nodes. -/
inductive TorrentDirTreeNode where
  | FileNode (size : Nat)
  | DirNode (entries : List (ByteStr × TorrentDirTreeNode))

/-- The mapping held by a directory node (`HashMap<String, TorrentDirTreeNode>`,
names are the bytes of validated UTF8 strings). -/
abbrev FileTree := List (ByteStr × TorrentDirTreeNode)

/-- The decoder's closed error taxonomy `TorrentFromBencodeError`, one
constructor per source variant.  The `Utf8Error` and `url::ParseError`
payloads of the source are dropped (they are opaque collaborator values);
the `usize` payloads are kept. -/
inductive TorrentFromBencodeError where
  | NotADict
  | AnnounceListNotAList
  | AnnounceListTierNotAList
  | TrackerUrlNotAString
  | TrackerUrlParseError
  | TrackerUrlInvalidUtf8
  | AnnounceUrlNotAString
  | AnnounceUrlParseError
  | AnnounceUrlInvalidUtf8
  | NodeListNotAList
  | NodeNotAList
  | NodeHostNotAString
  | NodeHostParseError
  | NodeHostInvalidUtf8
  | NodePortNotANumber
  | NodePortOutOfRange
  | NodeInvalidList
  | UrlListNotAString
  | UrlListParseError
  | UrlListInvalidUtf8
  | HttpSeedsNotAList
  | HttpSeedNotAString
  | HttpSeedParseError
  | HttpSeedInvalidUtf8
  | InfoDictNotADict
  | RootHashNotAString
  | RootHashInvalidHashLength (len : Nat)
  | PrivateFlagNotANumber
  | NameNotAString
  | NameInvalidUtf8
  | NameNotPresent
  | PieceLengthNotANumber
  | PieceLengthOutOfRange
  | PieceLengthNotPresent
  | InvalidPiecesLength (len : Nat)
  | PiecesNotAString
  | PiecesNotPresent
  | LengthNotANumber
  | LengthOutOfRange
  | FilesNotAList
  | NietherLengthOrFilesPresent
  | FileInfoNotADict
  | FileLengthNotANumber
  | FileLengthOutOfRange
  | FileLengthNotPresent
  | FilePathNotAList
  | FilePathNotPresent
  | DirNameNotAString
  | DirNameInvalidUtf8
  | FileNameNotAString
  | FileNameInvalidUtf8
  | EmptyFilePath
  | DuplicateFileName

open TorrentFromBencodeError

/-- The decoded torrent (`struct Torrent`). -/
structure Torrent where
  trackers : List (List Url)
  nodes : List (Host × Nat)
  httpseeds : List Url
  urllist : Option Url
  «private» : Bool
  piece_length : Nat
  pieces : List Sha1Hash
  merkle_root : Option Sha1Hash
  filename : ByteStr
  contents : TorrentDirTreeNode

/-! ### Decoder components (`impl FromBencode for Torrent`, torrent.rs 119-382)

`pu` stands for the external URL parser applied to a UTF8-validated string
(`Url::parse`), `ph` for the external host parser (`Host::parse`). -/

/-- The bencode keys the decoder looks up, as raw byte strings. -/
def keyAnnounceList : ByteStr := [97, 110, 110, 111, 117, 110, 99, 101, 45, 108, 105, 115, 116]

/-- The key `announce`. -/
def keyAnnounce : ByteStr := [97, 110, 110, 111, 117, 110, 99, 101]

/-- The key `nodes`. -/
def keyNodes : ByteStr := [110, 111, 100, 101, 115]

/-- The key `url-list`. -/
def keyUrlList : ByteStr := [117, 114, 108, 45, 108, 105, 115, 116]

/-- The key `httpseeds`. -/
def keyHttpseeds : ByteStr := [104, 116, 116, 112, 115, 101, 101, 100, 115]

/-- The key `info`. -/
def keyInfo : ByteStr := [105, 110, 102, 111]

/-- The key `root hash`. -/
def keyRootHash : ByteStr := [114, 111, 111, 116, 32, 104, 97, 115, 104]

/-- The key `private`. -/
def keyPrivate : ByteStr := [112, 114, 105, 118, 97, 116, 101]

/-- The key `name`. -/
def keyName : ByteStr := [110, 97, 109, 101]

/-- The key `piece length`. -/
def keyPieceLength : ByteStr := [112, 105, 101, 99, 101, 32, 108, 101, 110, 103, 116, 104]

/-- The key `pieces`. -/
def keyPieces : ByteStr := [112, 105, 101, 99, 101, 115]

/-- The key `length`. -/
def keyLength : ByteStr := [108, 101, 110, 103, 116, 104]

/-- The key `files`. -/
def keyFiles : ByteStr := [102, 105, 108, 101, 115]

/-- The key `path`. -/
def keyPath : ByteStr := [112, 97, 116, 104]

/-- One tracker URL of an `announce-list` tier (torrent.rs 134-143):
byte string, UTF8, then the external URL parse, each with its own error. -/
def decodeTracker (pu : ByteStr → Option Url) (b : Bencode) :
    Except TorrentFromBencodeError Url :=
  match b with
  | .bstr u =>
    if validUtf8 u then
      match pu u with
      | some url => .ok url
      | none => .error TrackerUrlParseError
    else .error TrackerUrlInvalidUtf8
  | _ => .error TrackerUrlNotAString

/-- The trackers of one tier, in order. -/
def decodeTier (pu : ByteStr → Option Url) : List Bencode →
    Except TorrentFromBencodeError (List Url)
  | [] => .ok []
  | tracker :: rest =>
    match decodeTracker pu tracker with
    | .error e => .error e
    | .ok u =>
      match decodeTier pu rest with
      | .error e => .error e
      | .ok us => .ok (u :: us)

/-- The tiers of an `announce-list`, in order; each must itself be a list
(torrent.rs 131-145). -/
def decodeTiers (pu : ByteStr → Option Url) : List Bencode →
    Except TorrentFromBencodeError (List (List Url))
  | [] => .ok []
  | tier :: rest =>
    match tier with
    | .list t =>
      match decodeTier pu t with
      | .error e => .error e
      | .ok tv =>
        match decodeTiers pu rest with
        | .error e => .error e
        | .ok rest' => .ok (tv :: rest')
    | _ => .error AnnounceListTierNotAList

/-- The optional `announce-list` field (torrent.rs 127-149). -/
def decodeAnnounceList (pu : ByteStr → Option Url) (hm : BDict) :
    Except TorrentFromBencodeError (Option (List (List Url))) :=
  match lookupBD hm keyAnnounceList with
  | some a =>
    match a with
    | .list al =>
      match decodeTiers pu al with
      | .error e => .error e
      | .ok tiers => .ok (some tiers)
    | _ => .error AnnounceListNotAList
  | none => .ok none

/-- The optional singular `announce` field (torrent.rs 151-160); note the
source evaluates this unconditionally, before tracker resolution. -/
def decodeAnnounce (pu : ByteStr → Option Url) (hm : BDict) :
    Except TorrentFromBencodeError (Option Url) :=
  match lookupBD hm keyAnnounce with
  | some s =>
    match s with
    | .bstr u =>
      if validUtf8 u then
        match pu u with
        | some url => .ok (some url)
        | none => .error AnnounceUrlParseError
      else .error AnnounceUrlInvalidUtf8
    | _ => .error AnnounceUrlNotAString
  | none => .ok none

/-- Tracker precedence (torrent.rs 162-174): a present `announce-list` wins
verbatim, an `announce` alone makes one singleton tier, otherwise empty. -/
def resolveTrackers (announce_list : Option (List (List Url)))
    (announce : Option Url) : List (List Url) :=
  match announce_list with
  | some al => al
  | none =>
    match announce with
    | some s => [[s]]
    | none => []

/-- One entry of the `nodes` list (torrent.rs 180-199): a two-element list
of host byte string and port number. -/
def decodeNode (ph : ByteStr → Option Host) (b : Bencode) :
    Except TorrentFromBencodeError (Host × Nat) :=
  match b with
  | .list n =>
    match n with
    | [addr_be, port_be] =>
      match addr_be with
      | .bstr s =>
        if validUtf8 s then
          match ph s with
          | some addr =>
            match port_be with
            | .num p =>
              match toU16 p with
              | some port => .ok (addr, port)
              | none => .error NodePortOutOfRange
            | _ => .error NodePortNotANumber
          | none => .error NodeHostParseError
        else .error NodeHostInvalidUtf8
      | _ => .error NodeHostNotAString
    | _ => .error NodeInvalidList
  | _ => .error NodeNotAList

/-- All entries of the `nodes` list, in order. -/
def decodeNodeList (ph : ByteStr → Option Host) : List Bencode →
    Except TorrentFromBencodeError (List (Host × Nat))
  | [] => .ok []
  | n_be :: rest =>
    match decodeNode ph n_be with
    | .error e => .error e
    | .ok node =>
      match decodeNodeList ph rest with
      | .error e => .error e
      | .ok nodes => .ok (node :: nodes)

/-- The optional `nodes` field (torrent.rs 176-204). -/
def decodeNodes (ph : ByteStr → Option Host) (hm : BDict) :
    Except TorrentFromBencodeError (List (Host × Nat)) :=
  match lookupBD hm keyNodes with
  | some nl_be =>
    match nl_be with
    | .list nl => decodeNodeList ph nl
    | _ => .error NodeListNotAList
  | none => .ok []

/-- The optional `url-list` field (torrent.rs 206-215). -/
def decodeUrllist (pu : ByteStr → Option Url) (hm : BDict) :
    Except TorrentFromBencodeError (Option Url) :=
  match lookupBD hm keyUrlList with
  | some ul_be =>
    match ul_be with
    | .bstr s =>
      if validUtf8 s then
        match pu s with
        | some u => .ok (some u)
        | none => .error UrlListParseError
      else .error UrlListInvalidUtf8
    | _ => .error UrlListNotAString
  | none => .ok none

/-- One entry of the `httpseeds` list (torrent.rs 221-229). -/
def decodeHttpseed (pu : ByteStr → Option Url) (b : Bencode) :
    Except TorrentFromBencodeError Url :=
  match b with
  | .bstr s =>
    if validUtf8 s then
      match pu s with
      | some u => .ok u
      | none => .error HttpSeedParseError
    else .error HttpSeedInvalidUtf8
  | _ => .error HttpSeedNotAString

/-- All entries of the `httpseeds` list, in order. -/
def decodeHttpseedList (pu : ByteStr → Option Url) : List Bencode →
    Except TorrentFromBencodeError (List Url)
  | [] => .ok []
  | h_be :: rest =>
    match decodeHttpseed pu h_be with
    | .error e => .error e
    | .ok h =>
      match decodeHttpseedList pu rest with
      | .error e => .error e
      | .ok hs => .ok (h :: hs)

/-- The optional `httpseeds` field (torrent.rs 217-234). -/
def decodeHttpseeds (pu : ByteStr → Option Url) (hm : BDict) :
    Except TorrentFromBencodeError (List Url) :=
  match lookupBD hm keyHttpseeds with
  | some hl_be =>
    match hl_be with
    | .list hl => decodeHttpseedList pu hl
    | _ => .error HttpSeedsNotAList
  | none => .ok []

/-- Info-dictionary selection (torrent.rs 236-239): a present `info` key
must be a dictionary; an absent one falls back to the whole top-level
dictionary. -/
def selectInfo (hm : BDict) : Except TorrentFromBencodeError BDict :=
  match lookupBD hm keyInfo with
  | some i =>
    match i with
    | .dict d => .ok d
    | _ => .error InfoDictNotADict
  | none => .ok hm

/-- The optional `root hash` field (torrent.rs 241-252). -/
def decodeMerkleRoot (info : BDict) :
    Except TorrentFromBencodeError (Option Sha1Hash) :=
  match lookupBD info keyRootHash with
  | some mr_be =>
    match mr_be with
    | .bstr mr =>
      match Sha1Hash.from_buffer mr with
      | .ok h => .ok (some h)
      | .error e => .error (RootHashInvalidHashLength e.len)
    | _ => .error RootHashNotAString
  | none => .ok none

/-- The optional `private` flag (torrent.rs 254-260): true iff nonzero,
default false. -/
def decodePrivate (info : BDict) : Except TorrentFromBencodeError Bool :=
  match lookupBD info keyPrivate with
  | some p_be =>
    match p_be with
    | .num p => .ok (p != 0)
    | _ => .error PrivateFlagNotANumber
  | none => .ok false

/-- The required `name` field (torrent.rs 262-268). -/
def decodeName (info : BDict) : Except TorrentFromBencodeError ByteStr :=
  match lookupBD info keyName with
  | some name_be =>
    match name_be with
    | .bstr s => if validUtf8 s then .ok s else .error NameInvalidUtf8
    | _ => .error NameNotAString
  | none => .error NameNotPresent

/-- The required `piece length` field (torrent.rs 270-276). -/
def decodePieceLength (info : BDict) : Except TorrentFromBencodeError Nat :=
  match lookupBD info keyPieceLength with
  | some pl_be =>
    match pl_be with
    | .num n =>
      match toU64 n with
      | some pl => .ok pl
      | none => .error PieceLengthOutOfRange
    | _ => .error PieceLengthNotANumber
  | none => .error PieceLengthNotPresent

/-- The required `pieces` byte string (torrent.rs 278-281). -/
def getPiecesBytes (info : BDict) : Except TorrentFromBencodeError ByteStr :=
  match lookupBD info keyPieces with
  | some p_be =>
    match p_be with
    | .bstr p => .ok p
    | _ => .error PiecesNotAString
  | none => .error PiecesNotPresent

/-- The pieces slicing loop (torrent.rs 286-296), on the remaining bytes,
with `total` the length of the whole `pieces` string.  Each iteration first
checks that at least 20 bytes remain (fewer is
`InvalidPiecesLength(total)`), takes one 20-byte chunk through
`Sha1Hash::from_buffer(..).unwrap()`, and stops once nothing remains; the
20-deep pattern is the `remaining.len() < 20` test made structural. -/
def piecesLoop (total : Nat) : ByteStr →
    Except TorrentFromBencodeError (List Sha1Hash)
  | a1 :: a2 :: a3 :: a4 :: a5 :: a6 :: a7 :: a8 :: a9 :: a10 ::
    a11 :: a12 :: a13 :: a14 :: a15 :: a16 :: a17 :: a18 :: a19 :: a20 :: rest =>
    match Sha1Hash.from_buffer
        [a1, a2, a3, a4, a5, a6, a7, a8, a9, a10,
         a11, a12, a13, a14, a15, a16, a17, a18, a19, a20] with
    | .error _ => .error (InvalidPiecesLength total)
    | .ok chunk =>
      match rest with
      | [] => .ok [chunk]
      | _ :: _ =>
        match piecesLoop total rest with
        | .error e => .error e
        | .ok l => .ok (chunk :: l)
  | _ => .error (InvalidPiecesLength total)

/-- Slicing the whole `pieces` string (torrent.rs 283-296). -/
def slicePieces (pieces : ByteStr) :
    Except TorrentFromBencodeError (List Sha1Hash) :=
  piecesLoop pieces.length pieces

/-- Spec-side definition for the refinement claim about pieces slicing,
following the spec's words: the consecutive 20-byte chunks of the byte
string, one digest per chunk, in original order. -/
def specPieceChunks (s : ByteStr) : List Sha1Hash :=
  (List.range (s.length / 20)).map fun i => ⟨(s.drop (20 * i)).take 20⟩

/-- The `length` of one `files` entry (torrent.rs 325-331). -/
def decodeFileLength (fileinfo : BDict) : Except TorrentFromBencodeError Nat :=
  match lookupBD fileinfo keyLength with
  | some l_be =>
    match l_be with
    | .num n =>
      match toU64 n with
      | some l => .ok l
      | none => .error FileLengthOutOfRange
    | _ => .error FileLengthNotANumber
  | none => .error FileLengthNotPresent

/-- One directory component of a `files` path (torrent.rs 341-344). -/
def decodeDirName (b : Bencode) : Except TorrentFromBencodeError ByteStr :=
  match b with
  | .bstr s => if validUtf8 s then .ok s else .error DirNameInvalidUtf8
  | _ => .error DirNameNotAString

/-- The final file-name component of a `files` path (torrent.rs 355-358). -/
def decodeFileName (b : Bencode) : Except TorrentFromBencodeError ByteStr :=
  match b with
  | .bstr s => if validUtf8 s then .ok s else .error FileNameInvalidUtf8
  | _ => .error FileNameNotAString

/-- Insert one `files` entry into the tree (torrent.rs 336-365): walk the
directory components through `getdir` (look up or lazily create a directory
child; an existing file child is `DuplicateFileName`), then insert the leaf
`FileNode(flen)` under the last component (any existing child there is
`DuplicateFileName`); an empty path is `EmptyFilePath`. -/
def insertPath (flen : Nat) : FileTree → List Bencode →
    Except TorrentFromBencodeError FileTree
  | _, [] => .error EmptyFilePath
  | dir, [fname_be] =>
    match decodeFileName fname_be with
    | .error e => .error e
    | .ok fname =>
      match lookupKey dir fname with
      | some _ => .error DuplicateFileName
      | none => .ok (dir ++ [(fname, .FileNode flen)])
  | dir, nextdir_be :: rest =>
    match decodeDirName nextdir_be with
    | .error e => .error e
    | .ok nextdir =>
      match lookupKey dir nextdir with
      | some (.FileNode _) => .error DuplicateFileName
      | some (.DirNode entries) =>
        match insertPath flen entries rest with
        | .error e => .error e
        | .ok entries' => .ok (updateKey dir nextdir (.DirNode entries'))
      | none =>
        match insertPath flen [] rest with
        | .error e => .error e
        | .ok entries' => .ok (dir ++ [(nextdir, .DirNode entries')])

/-- Process the `files` entries in order (torrent.rs 323-366), threading the
shared tree: each entry must be a dictionary with a `length` and a `path`
list. -/
def buildFileTree : List Bencode → FileTree →
    Except TorrentFromBencodeError FileTree
  | [], filetree => .ok filetree
  | fileinfo_be :: rest, filetree =>
    match fileinfo_be with
    | .dict fileinfo =>
      match decodeFileLength fileinfo with
      | .error e => .error e
      | .ok flen =>
        match lookupBD fileinfo keyPath with
        | some p_be =>
          match p_be with
          | .list path =>
            match insertPath flen filetree path with
            | .error e => .error e
            | .ok filetree' => buildFileTree rest filetree'
          | _ => .error FilePathNotAList
        | none => .error FilePathNotPresent
    | _ => .error FileInfoNotADict

/-- Content-shape disambiguation (torrent.rs 298-380): a present `length`
means single-file mode (one `FileNode`, the `files` key never consulted);
otherwise `files` must be present and a list, decoded into a `DirNode`. -/
def decodeContents (info : BDict) :
    Except TorrentFromBencodeError TorrentDirTreeNode :=
  match lookupBD info keyLength with
  | some l =>
    match l with
    | .num n =>
      match toU64 n with
      | some len => .ok (.FileNode len)
      | none => .error LengthOutOfRange
    | _ => .error LengthNotANumber
  | none =>
    match lookupBD info keyFiles with
    | some files_be =>
      match files_be with
      | .list files =>
        match buildFileTree files [] with
        | .error e => .error e
        | .ok ft => .ok (.DirNode ft)
      | _ => .error FilesNotAList
    | none => .error NietherLengthOrFilesPresent

/-- The decoder `Torrent::from_bencode` (torrent.rs 122-381): the full pipeline,
in the source's evaluation order. -/
def decodeTorrent (pu : ByteStr → Option Url) (ph : ByteStr → Option Host)
    (bencode : Bencode) : Except TorrentFromBencodeError Torrent := do
  let hm ←
    match bencode with
    | .dict hm => Except.ok hm
    | _ => Except.error NotADict
  let announce_list ← decodeAnnounceList pu hm
  let announce ← decodeAnnounce pu hm
  let trackers := resolveTrackers announce_list announce
  let nodes ← decodeNodes ph hm
  let urllist ← decodeUrllist pu hm
  let httpseeds ← decodeHttpseeds pu hm
  let info ← selectInfo hm
  let merkle_root ← decodeMerkleRoot info
  let priv ← decodePrivate info
  let name ← decodeName info
  let piece_length ← decodePieceLength info
  let pieces ← getPiecesBytes info
  let pieces_vec ← slicePieces pieces
  let contents ← decodeContents info
  Except.ok
    { trackers := trackers
      nodes := nodes
      httpseeds := httpseeds
      urllist := urllist
      «private» := priv
      piece_length := piece_length
      pieces := pieces_vec
      merkle_root := merkle_root
      filename := name
      contents := contents }

/-- The error of the external bencode byte parser
(`bencode::streaming::Error`), kept opaque. -/
abbrev BencodeStreamingError := Nat

/-- The error `FromBufferError`: the two failure layers of `Torrent::from_buffer`. -/
inductive FromBufferError where
  | InvalidBencode (e : BencodeStreamingError)
  | FromBencode (e : TorrentFromBencodeError)

/-- Loading by `Torrent::from_buffer` (torrent.rs 420-426), with the external byte
parser `bparse` as a parameter: a parse failure is wrapped as
`InvalidBencode`, a decode failure as `FromBencode`. -/
def Torrent.from_buffer (bparse : ByteStr → Except BencodeStreamingError Bencode)
    (pu : ByteStr → Option Url) (ph : ByteStr → Option Host) (s : ByteStr) :
    Except FromBufferError Torrent :=
  match bparse s with
  | .error e => .error (.InvalidBencode e)
  | .ok ben =>
    match decodeTorrent pu ph ben with
    | .error e => .error (.FromBencode e)
    | .ok t => .ok t

/-! ### Concrete inputs used by examples, witnesses and counterexamples

`pu0` and `ph0` instantiate the external URL and host parsers with the
parser that accepts every string, returning it unchanged; individual
theorems quantify over arbitrary parsers. -/

/-- An always-succeeding URL parser instance. -/
def pu0 : ByteStr → Option Url := fun s => some s

/-- An always-succeeding host parser instance. -/
def ph0 : ByteStr → Option Host := fun s => some s

/-- Twenty zero bytes: one well-formed `pieces` chunk. -/
def bytes20 : ByteStr := List.replicate 20 0

/-- A minimal valid single-file descriptor dictionary, carrying `name`,
`piece length`, `pieces` and `length` directly at top level (no `info`
key). -/
def baseDict : BDict :=
  [(keyName, .bstr [97]), (keyPieceLength, .num 1),
   (keyPieces, .bstr bytes20), (keyLength, .num 1)]

/-- The descriptor `baseDict` decodes to. -/
def baseT : Torrent :=
  { trackers := [], nodes := [], httpseeds := [], urllist := none,
    «private» := false, piece_length := 1, pieces := [⟨bytes20⟩],
    merkle_root := none, filename := [97], contents := .FileNode 1 }

/-- The dictionary `baseDict` with an empty `announce-list` and an `announce` value that is
not a byte string: the input refuting the claim that a present
`announce-list` makes `announce` unable to cause failure. -/
def c1badDict : BDict :=
  (keyAnnounceList, Bencode.list []) :: (keyAnnounce, Bencode.num 0) :: baseDict

/-- The dictionary `baseDict` with only the empty `announce-list`. -/
def c1okDict : BDict :=
  (keyAnnounceList, Bencode.list []) :: baseDict

/-- The dictionary `baseDict` with `announce-list [["a"]]` and `announce "b"`: both tracker
fields present and individually valid. -/
def c1wDict : BDict :=
  (keyAnnounceList, Bencode.list [Bencode.list [Bencode.bstr [97]]]) ::
    (keyAnnounce, Bencode.bstr [98]) :: baseDict

/-- The descriptor `c1wDict` decodes to: `announce-list` wins. -/
def c1wT : Torrent :=
  { trackers := [[[97]]], nodes := [], httpseeds := [], urllist := none,
    «private» := false, piece_length := 1, pieces := [⟨bytes20⟩],
    merkle_root := none, filename := [97], contents := .FileNode 1 }

/-- The dictionary `baseDict` with an empty `pieces` byte string. -/
def c2dict : BDict :=
  [(keyName, .bstr [97]), (keyPieceLength, .num 1),
   (keyPieces, .bstr []), (keyLength, .num 1)]

/-- The name `d`. -/
def dName : ByteStr := [100]

/-- The name `e.txt`. -/
def eTxt : ByteStr := [101, 46, 116, 120, 116]

/-- The name `f.txt`. -/
def fTxt : ByteStr := [102, 46, 116, 120, 116]

/-- The spec's two-entry `files` example:
`[(length 5, path [d, e.txt]), (length 7, path [d, f.txt])]`. -/
def exFilesC3 : List Bencode :=
  [.dict [(keyLength, .num 5), (keyPath, .list [.bstr dName, .bstr eTxt])],
   .dict [(keyLength, .num 7), (keyPath, .list [.bstr dName, .bstr fTxt])]]

/-- An info dictionary holding only the example `files` list. -/
def exInfoC3 : BDict := [(keyFiles, .list exFilesC3)]

/-- The directory tree the example `files` list builds. -/
def exTreeC3 : TorrentDirTreeNode :=
  .DirNode [(dName, .DirNode [(eTxt, .FileNode 5), (fTxt, .FileNode 7)])]

/-- The dictionary `baseDict` with an empty `name` byte string: the input refuting the
claim that a successfully decoded `filename` is never empty. -/
def c4dict : BDict :=
  [(keyName, .bstr []), (keyPieceLength, .num 1),
   (keyPieces, .bstr bytes20), (keyLength, .num 1)]

/-- The descriptor `c4dict` decodes to: its `filename` is empty. -/
def c4T : Torrent :=
  { trackers := [], nodes := [], httpseeds := [], urllist := none,
    «private» := false, piece_length := 1, pieces := [⟨bytes20⟩],
    merkle_root := none, filename := [], contents := .FileNode 1 }

/-- An otherwise-valid multi-file descriptor whose `files` list is empty
(and with no `length` key). -/
def c10dict : BDict :=
  [(keyName, .bstr [97]), (keyPieceLength, .num 1),
   (keyPieces, .bstr bytes20), (keyFiles, .list [])]

/-- The descriptor `c10dict` decodes to: an empty directory. -/
def c10T : Torrent :=
  { trackers := [], nodes := [], httpseeds := [], urllist := none,
    «private» := false, piece_length := 1, pieces := [⟨bytes20⟩],
    merkle_root := none, filename := [97], contents := .DirNode [] }

/-! ## Shared lemmas -/

/-- Inversion for `Except` bind against a success result. -/
theorem except_bind_ok {ε α β : Type} {x : Except ε α} {f : α → Except ε β}
    {b : β} : x >>= f = .ok b ↔ ∃ a, x = .ok a ∧ f a = .ok b := by
  cases x <;> simp [Bind.bind, Except.bind]

/-- Inversion of a successful decode: every stage succeeded, and the result
record is assembled from the stages' values. -/
theorem decodeTorrent_ok {pu ph : ByteStr → Option ByteStr} {b : Bencode}
    {t : Torrent} (h : decodeTorrent pu ph b = .ok t) :
    ∃ hm al an nodes ul hs info mr pv name pl pbytes pvec contents,
      b = .dict hm ∧
      decodeAnnounceList pu hm = .ok al ∧
      decodeAnnounce pu hm = .ok an ∧
      decodeNodes ph hm = .ok nodes ∧
      decodeUrllist pu hm = .ok ul ∧
      decodeHttpseeds pu hm = .ok hs ∧
      selectInfo hm = .ok info ∧
      decodeMerkleRoot info = .ok mr ∧
      decodePrivate info = .ok pv ∧
      decodeName info = .ok name ∧
      decodePieceLength info = .ok pl ∧
      getPiecesBytes info = .ok pbytes ∧
      slicePieces pbytes = .ok pvec ∧
      decodeContents info = .ok contents ∧
      t = ⟨resolveTrackers al an, nodes, hs, ul, pv, pl, pvec, mr, name, contents⟩ := by
  cases b <;> simp only [decodeTorrent] at h
  case dict hm =>
    simp only [except_bind_ok] at h
    obtain ⟨hm', hhm, h⟩ := h
    obtain ⟨al, hal, h⟩ := h
    obtain ⟨an, han, h⟩ := h
    obtain ⟨nodes, hnodes, h⟩ := h
    obtain ⟨ul, hul, h⟩ := h
    obtain ⟨hs, hhs, h⟩ := h
    obtain ⟨info, hinfo, h⟩ := h
    obtain ⟨mr, hmr, h⟩ := h
    obtain ⟨pv, hpv, h⟩ := h
    obtain ⟨name, hname, h⟩ := h
    obtain ⟨pl, hpl, h⟩ := h
    obtain ⟨pbytes, hpb, h⟩ := h
    obtain ⟨pvec, hpvec, h⟩ := h
    obtain ⟨contents, hc, h⟩ := h
    injection hhm with hhm'
    subst hhm'
    injection h with h'
    exact ⟨hm, al, an, nodes, ul, hs, info, mr, pv, name, pl, pbytes, pvec, contents,
      rfl, hal, han, hnodes, hul, hhs, hinfo, hmr, hpv, hname, hpl, hpb, hpvec, hc, h'.symm⟩
  all_goals cases h

/-! ## C1: tracker precedence -/

/-- C1 (counterexample): with `announce-list` present (an empty list) the
singular `announce` field is not ignored — an `announce` value that is not a
byte string aborts the whole decode with `AnnounceUrlNotAString`, while the
same dictionary without the `announce` key decodes successfully.  This
refutes the claim that a present `announce-list` makes the `announce` value
unable to change the result or cause failure. -/
theorem C1_counterexample :
    decodeTorrent pu0 ph0 (.dict c1badDict) = .error AnnounceUrlNotAString ∧
    decodeTorrent pu0 ph0 (.dict c1okDict) = .ok baseT :=
  ⟨rfl, rfl⟩

/-- C1 (amended): for every input dictionary whose two tracker fields decode
without error, the decoded `trackers` follow the precedence rule: a present
(and well-formed) `announce-list` is used verbatim — even when it has zero
tiers, and whatever the `announce` field held; with `announce-list` absent,
a valid `announce` gives exactly one tier of one URL; with neither, the
trackers are empty.  (The `announce` field is still validated even when
`announce-list` is present: a malformed `announce` aborts the decode, which
is why the hypotheses require both fields to decode.) -/
theorem C1_tracker_precedence (pu ph : ByteStr → Option ByteStr) (hm : BDict)
    (t : Torrent) (alOpt : Option (List (List Url))) (anOpt : Option Url)
    (hal : decodeAnnounceList pu hm = .ok alOpt)
    (han : decodeAnnounce pu hm = .ok anOpt)
    (hok : decodeTorrent pu ph (.dict hm) = .ok t) :
    t.trackers =
      match alOpt, anOpt with
      | some al, _ => al
      | none, some u => [[u]]
      | none, none => [] := by
  obtain ⟨hm', al, an, nodes, ul, hs, info, mr, pv, name, pl, pbytes, pvec, contents,
    hbd, hal', han', -, -, -, -, -, -, -, -, -, -, -, ht⟩ := decodeTorrent_ok hok
  injection hbd with hbd'
  subst hbd'
  rw [hal] at hal'
  injection hal' with e1
  subst e1
  rw [han] at han'
  injection han' with e2
  subst e2
  subst ht
  cases alOpt <;> cases anOpt <;> rfl

/-- C1 (witness): both fields present and valid — `announce-list [["a"]]`
and `announce "b"` — decode to trackers `[["a"]]`. -/
theorem C1_tracker_precedence_witness : c1wT.trackers = [[[97]]] :=
  C1_tracker_precedence pu0 ph0 c1wDict c1wT (some [[[97]]]) (some [98]) rfl rfl rfl


/-! ## C2: pieces slicing -/

/-- The slicing loop on any byte string shorter than one chunk fails with
`InvalidPiecesLength` of the whole `pieces` length. -/
theorem piecesLoop_short (total : Nat) (s : ByteStr) (h : s.length < 20) :
    piecesLoop total s = .error (InvalidPiecesLength total) := by
  rcases s with - | ⟨b1, s⟩; · rfl
  rcases s with - | ⟨b2, s⟩; · rfl
  rcases s with - | ⟨b3, s⟩; · rfl
  rcases s with - | ⟨b4, s⟩; · rfl
  rcases s with - | ⟨b5, s⟩; · rfl
  rcases s with - | ⟨b6, s⟩; · rfl
  rcases s with - | ⟨b7, s⟩; · rfl
  rcases s with - | ⟨b8, s⟩; · rfl
  rcases s with - | ⟨b9, s⟩; · rfl
  rcases s with - | ⟨b10, s⟩; · rfl
  rcases s with - | ⟨b11, s⟩; · rfl
  rcases s with - | ⟨b12, s⟩; · rfl
  rcases s with - | ⟨b13, s⟩; · rfl
  rcases s with - | ⟨b14, s⟩; · rfl
  rcases s with - | ⟨b15, s⟩; · rfl
  rcases s with - | ⟨b16, s⟩; · rfl
  rcases s with - | ⟨b17, s⟩; · rfl
  rcases s with - | ⟨b18, s⟩; · rfl
  rcases s with - | ⟨b19, s⟩; · rfl
  rcases s with - | ⟨b20, s⟩; · rfl
  simp only [List.length_cons] at h
  omega

theorem exists_cons20 (s : ByteStr) (h : 20 ≤ s.length) :
    ∃ b1 b2 b3 b4 b5 b6 b7 b8 b9 b10 b11 b12 b13 b14 b15 b16 b17 b18 b19 b20 rest,
      s = b1 :: b2 :: b3 :: b4 :: b5 :: b6 :: b7 :: b8 :: b9 :: b10 ::
        b11 :: b12 :: b13 :: b14 :: b15 :: b16 :: b17 :: b18 :: b19 :: b20 :: rest := by
  rcases s with - | ⟨b1, s⟩; · simp only [List.length_nil] at h; omega
  rcases s with - | ⟨b2, s⟩; · simp only [List.length_cons, List.length_nil] at h; omega
  rcases s with - | ⟨b3, s⟩; · simp only [List.length_cons, List.length_nil] at h; omega
  rcases s with - | ⟨b4, s⟩; · simp only [List.length_cons, List.length_nil] at h; omega
  rcases s with - | ⟨b5, s⟩; · simp only [List.length_cons, List.length_nil] at h; omega
  rcases s with - | ⟨b6, s⟩; · simp only [List.length_cons, List.length_nil] at h; omega
  rcases s with - | ⟨b7, s⟩; · simp only [List.length_cons, List.length_nil] at h; omega
  rcases s with - | ⟨b8, s⟩; · simp only [List.length_cons, List.length_nil] at h; omega
  rcases s with - | ⟨b9, s⟩; · simp only [List.length_cons, List.length_nil] at h; omega
  rcases s with - | ⟨b10, s⟩; · simp only [List.length_cons, List.length_nil] at h; omega
  rcases s with - | ⟨b11, s⟩; · simp only [List.length_cons, List.length_nil] at h; omega
  rcases s with - | ⟨b12, s⟩; · simp only [List.length_cons, List.length_nil] at h; omega
  rcases s with - | ⟨b13, s⟩; · simp only [List.length_cons, List.length_nil] at h; omega
  rcases s with - | ⟨b14, s⟩; · simp only [List.length_cons, List.length_nil] at h; omega
  rcases s with - | ⟨b15, s⟩; · simp only [List.length_cons, List.length_nil] at h; omega
  rcases s with - | ⟨b16, s⟩; · simp only [List.length_cons, List.length_nil] at h; omega
  rcases s with - | ⟨b17, s⟩; · simp only [List.length_cons, List.length_nil] at h; omega
  rcases s with - | ⟨b18, s⟩; · simp only [List.length_cons, List.length_nil] at h; omega
  rcases s with - | ⟨b19, s⟩; · simp only [List.length_cons, List.length_nil] at h; omega
  rcases s with - | ⟨b20, s⟩; · simp only [List.length_cons, List.length_nil] at h; omega
  exact ⟨b1, b2, b3, b4, b5, b6, b7, b8, b9, b10, b11, b12, b13, b14, b15, b16,
    b17, b18, b19, b20, s, rfl⟩

theorem specPieceChunks_cons20 (b1 b2 b3 b4 b5 b6 b7 b8 b9 b10 b11 b12 b13 b14
    b15 b16 b17 b18 b19 b20 : Nat) (rest : ByteStr) :
    specPieceChunks (b1 :: b2 :: b3 :: b4 :: b5 :: b6 :: b7 :: b8 :: b9 :: b10 ::
        b11 :: b12 :: b13 :: b14 :: b15 :: b16 :: b17 :: b18 :: b19 :: b20 :: rest) =
      (⟨[b1, b2, b3, b4, b5, b6, b7, b8, b9, b10,
         b11, b12, b13, b14, b15, b16, b17, b18, b19, b20]⟩ : Sha1Hash) ::
        specPieceChunks rest := by
  unfold specPieceChunks
  have h1 : (b1 :: b2 :: b3 :: b4 :: b5 :: b6 :: b7 :: b8 :: b9 :: b10 ::
      b11 :: b12 :: b13 :: b14 :: b15 :: b16 :: b17 :: b18 :: b19 :: b20 :: rest).length
      = rest.length + 20 := by simp
  rw [h1, Nat.add_div_right _ (by norm_num), List.range_succ_eq_map]
  simp only [List.map_cons, List.map_map]
  refine congrArg₂ List.cons rfl ?_
  apply List.map_congr_left
  intro i hi
  rfl

theorem specPieceChunks_nil : specPieceChunks ([] : ByteStr) = [] := by
  simp [specPieceChunks]

theorem piecesLoop_spec (total : Nat) : ∀ n (s : ByteStr), s.length = n →
    piecesLoop total s =
      if s.length ≠ 0 ∧ 20 ∣ s.length then .ok (specPieceChunks s)
      else .error (InvalidPiecesLength total) := by
  intro n
  induction n using Nat.strong_induction_on with
  | _ n ih =>
    intro s hlen
    by_cases h20 : s.length < 20
    · rw [piecesLoop_short total s h20]
      rcases Nat.eq_zero_or_pos s.length with h0 | hpos
      · rw [if_neg]; rintro ⟨hne, -⟩; exact hne h0
      · rw [if_neg]; rintro ⟨-, hdvd⟩; have := Nat.le_of_dvd hpos hdvd; omega
    · push_neg at h20
      obtain ⟨b1, b2, b3, b4, b5, b6, b7, b8, b9, b10, b11, b12, b13, b14, b15,
        b16, b17, b18, b19, b20, rest, rfl⟩ := exists_cons20 s h20
      cases rest with
      | nil =>
        rw [if_pos ⟨by simp, by simp⟩, specPieceChunks_cons20, specPieceChunks_nil]
        rfl
      | cons r rs =>
        have key : piecesLoop total (b1 :: b2 :: b3 :: b4 :: b5 :: b6 :: b7 :: b8 ::
            b9 :: b10 :: b11 :: b12 :: b13 :: b14 :: b15 :: b16 :: b17 :: b18 ::
            b19 :: b20 :: r :: rs) =
            match piecesLoop total (r :: rs) with
            | .error e => .error e
            | .ok l => .ok ((⟨[b1, b2, b3, b4, b5, b6, b7, b8, b9, b10,
                b11, b12, b13, b14, b15, b16, b17, b18, b19, b20]⟩ : Sha1Hash) :: l) := rfl
        have hlt : (r :: rs).length < n := by
          subst hlen
          simp only [List.length_cons]
          omega
        have ihr := ih (r :: rs).length hlt (r :: rs) rfl
        by_cases hd : 20 ∣ (r :: rs).length
        · rw [if_pos ⟨by simp, hd⟩] at ihr
          rw [key, ihr, if_pos ⟨by simp, by simp only [List.length_cons] at hd ⊢; omega⟩,
            specPieceChunks_cons20]
        · rw [if_neg (by rintro ⟨-, h⟩; exact hd h)] at ihr
          rw [key, ihr, if_neg]
          rintro ⟨-, h⟩
          simp only [List.length_cons] at h hd
          omega

/-- C2 (counterexample): an empty `pieces` byte string — length 0, which is
a multiple of 20 — does not decode to zero digests: the whole decode fails
with `InvalidPiecesLength 0`, refuting the claim that every multiple of 20
including 0 succeeds. -/
theorem C2_counterexample :
    decodeTorrent pu0 ph0 (.dict c2dict) = .error (InvalidPiecesLength 0) := rfl

/-- C2 (amended): slicing a `pieces` byte string of length n fails with
`InvalidPiecesLength n` exactly when n is zero or not a multiple of 20; for
every positive multiple of 20 it succeeds with the consecutive 20-byte
chunks of the string, in original order, n / 20 digests in all. -/
theorem C2_pieces_slicing (s : ByteStr) :
    slicePieces s =
      (if s.length ≠ 0 ∧ 20 ∣ s.length then .ok (specPieceChunks s)
       else .error (InvalidPiecesLength s.length)) ∧
    (specPieceChunks s).length = s.length / 20 := by
  constructor
  · exact piecesLoop_spec s.length s.length s rfl
  · simp [specPieceChunks]

/-! ## C4: filename contents -/

/-- A successfully decoded `name` passed the UTF8 check. -/
theorem decodeName_valid {info : BDict} {name : ByteStr}
    (h : decodeName info = .ok name) : validUtf8 name = true := by
  unfold decodeName at h
  split at h
  · split at h
    · split at h
      · injection h with h'; subst h'; assumption
      · cases h
    all_goals cases h
  · cases h

/-- C4 (counterexample): a descriptor whose `name` is the empty byte string
decodes successfully and its `filename` is empty — the decoder never
enforces non-emptiness, refuting the claim that a decoded `filename` is
always non-empty. -/
theorem C4_counterexample :
    decodeTorrent pu0 ph0 (.dict c4dict) = .ok c4T ∧ c4T.filename = [] :=
  ⟨rfl, rfl⟩

/-- C4 (amended): for every input on which decode succeeds, the resulting
descriptor's `filename` is a valid-UTF8 byte string (possibly empty: the
decoder validates UTF8 but does not enforce non-emptiness). -/
theorem C4_filename_utf8 (pu ph : ByteStr → Option ByteStr) (b : Bencode)
    (t : Torrent) (h : decodeTorrent pu ph b = .ok t) :
    validUtf8 t.filename = true := by
  obtain ⟨hm, al, an, nodes, ul, hs, info, mr, pv, name, pl, pbytes, pvec, contents,
    -, -, -, -, -, -, -, -, -, hname, -, -, -, -, ht⟩ := decodeTorrent_ok h
  subst ht
  exact decodeName_valid hname

/-- C4 (witness): the base descriptor decodes with a valid-UTF8 filename. -/
theorem C4_filename_utf8_witness : validUtf8 baseT.filename = true :=
  C4_filename_utf8 pu0 ph0 (.dict baseDict) baseT rfl

/-! ## C9: load-pipeline error layering -/

/-- C9: `Torrent::from_buffer` wraps a failure of the external byte parser
as `InvalidBencode`, wraps a decoder failure as `FromBencode`, passes a
successful decode through unchanged, and the two error kinds never
coincide. -/
theorem C9_error_layering :
    (∀ bp (pu ph : ByteStr → Option ByteStr) s e, bp s = .error e →
       Torrent.from_buffer bp pu ph s = .error (.InvalidBencode e)) ∧
    (∀ bp (pu ph : ByteStr → Option ByteStr) s d e, bp s = .ok d →
       decodeTorrent pu ph d = .error e →
       Torrent.from_buffer bp pu ph s = .error (.FromBencode e)) ∧
    (∀ bp (pu ph : ByteStr → Option ByteStr) s d t, bp s = .ok d →
       decodeTorrent pu ph d = .ok t →
       Torrent.from_buffer bp pu ph s = .ok t) ∧
    (∀ e e', FromBufferError.InvalidBencode e ≠ FromBufferError.FromBencode e') := by
  refine ⟨?_, ?_, ?_, ?_⟩
  · intro bp pu ph s e h
    simp [Torrent.from_buffer, h]
  · intro bp pu ph s d e h1 h2
    simp [Torrent.from_buffer, h1, h2]
  · intro bp pu ph s d t h1 h2
    simp [Torrent.from_buffer, h1, h2]
  · intro e e' h
    cases h

/-! ## C10: empty files list -/

/-- C10: a multi-file input (no `length` key) whose `files` key holds the
empty list decodes with `contents` the empty directory — an empty `files`
list is not an error. -/
theorem C10_empty_files (pu ph : ByteStr → Option ByteStr) (hm info : BDict)
    (t : Torrent) (h : decodeTorrent pu ph (.dict hm) = .ok t)
    (hinfo : selectInfo hm = .ok info)
    (hlen : lookupBD info keyLength = none)
    (hfiles : lookupBD info keyFiles = some (.list [])) :
    t.contents = .DirNode [] := by
  obtain ⟨hm', al, an, nodes, ul, hs, info', mr, pv, name, pl, pbytes, pvec, contents,
    hbd, -, -, -, -, -, hinfo', -, -, -, -, -, -, hc, ht⟩ := decodeTorrent_ok h
  injection hbd with e; subst e
  rw [hinfo] at hinfo'; injection hinfo' with e; subst e
  rw [decodeContents, hlen, hfiles] at hc
  simp only [buildFileTree] at hc
  injection hc with e
  subst ht
  exact e.symm

/-- C10 (witness): the concrete empty-`files` descriptor `c10dict` decodes
successfully and its contents are the empty directory. -/
theorem C10_empty_files_witness : c10T.contents = .DirNode [] :=
  C10_empty_files pu0 ph0 c10dict c10dict c10T rfl rfl rfl rfl

/-! ## C5: content-shape disambiguation -/

/-- C5: a present `length` key (an integer in unsigned 64-bit range) makes
`contents` a single file leaf of that size whatever else the dictionary
holds (in particular any `files` key is never consulted); an out-of-range
`length` integer is `LengthOutOfRange`, a non-integer `length` is
`LengthNotANumber`; with `length` absent, a missing `files` key is
`NietherLengthOrFilesPresent` and a non-list `files` is `FilesNotAList`. -/
theorem C5_content_shape :
    (∀ (pu ph : ByteStr → Option ByteStr) hm info t n L,
       decodeTorrent pu ph (.dict hm) = .ok t → selectInfo hm = .ok info →
       lookupBD info keyLength = some (.num n) → toU64 n = some L →
       t.contents = .FileNode L) ∧
    (∀ info n, lookupBD info keyLength = some (.num n) → toU64 n = none →
       decodeContents info = .error LengthOutOfRange) ∧
    (∀ info v, lookupBD info keyLength = some v → (∀ n, v ≠ .num n) →
       decodeContents info = .error LengthNotANumber) ∧
    (∀ info, lookupBD info keyLength = none → lookupBD info keyFiles = none →
       decodeContents info = .error NietherLengthOrFilesPresent) ∧
    (∀ info v, lookupBD info keyLength = none → lookupBD info keyFiles = some v →
       (∀ l, v ≠ .list l) → decodeContents info = .error FilesNotAList) := by
  refine ⟨?_, ?_, ?_, ?_, ?_⟩
  · intro pu ph hm info t n L h hinfo hln hu
    obtain ⟨hm', al, an, nodes, ul, hs, info', mr, pv, name, pl, pbytes, pvec, contents,
      hbd, -, -, -, -, -, hinfo', -, -, -, -, -, -, hc, ht⟩ := decodeTorrent_ok h
    injection hbd with e; subst e
    rw [hinfo] at hinfo'; injection hinfo' with e; subst e
    simp only [decodeContents, hln, hu] at hc
    injection hc with e
    subst ht
    exact e.symm
  · intro info n hln hu
    simp only [decodeContents, hln, hu]
  · intro info v hln hnn
    simp only [decodeContents, hln]
  · intro info hln hf
    simp only [decodeContents, hln, hf]
  · intro info v hln hf hnl
    simp only [decodeContents, hln, hf]

/-! ## C6: info-dictionary selection -/

/-- C6: a present `info` key must hold a dictionary (anything else is
`InfoDictNotADict`), and that dictionary serves the info-field lookups of a
successful decode; an absent `info` key makes the top-level dictionary
serve as the info dictionary, so a top-level dictionary carrying `name`,
`piece length`, `pieces` and `length` directly decodes successfully. -/
theorem C6_info_selection :
    (∀ hm v, lookupBD hm keyInfo = some v → (∀ d, v ≠ .dict d) →
       selectInfo hm = .error InfoDictNotADict) ∧
    (∀ hm d, lookupBD hm keyInfo = some (.dict d) → selectInfo hm = .ok d) ∧
    (∀ hm, lookupBD hm keyInfo = none → selectInfo hm = .ok hm) ∧
    (∀ (pu ph : ByteStr → Option ByteStr) hm t,
       decodeTorrent pu ph (.dict hm) = .ok t →
       ∃ info, selectInfo hm = .ok info ∧ decodeName info = .ok t.filename ∧
         decodeContents info = .ok t.contents) ∧
    decodeTorrent pu0 ph0 (.dict baseDict) = .ok baseT := by
  refine ⟨?_, ?_, ?_, ?_, rfl⟩
  · intro hm v hv hnd
    rw [selectInfo, hv]
    cases v with
    | dict d => exact absurd rfl (hnd d)
    | bstr s => rfl
    | num n => rfl
    | list l => rfl
  · intro hm d hv
    rw [selectInfo, hv]
  · intro hm hv
    rw [selectInfo, hv]
  · intro pu ph hm t h
    obtain ⟨hm', al, an, nodes, ul, hs, info, mr, pv, name, pl, pbytes, pvec, contents,
      hbd, -, -, -, -, -, hinfo, -, -, hname, -, -, -, hc, ht⟩ := decodeTorrent_ok h
    injection hbd with e; subst e
    subst ht
    exact ⟨info, hinfo, hname, hc⟩

/-! ## C7: node parsing -/

/-- A two-element `nodes` entry never fails with `NodeInvalidList`: every
branch of its decoding yields a different error or succeeds. -/
theorem decodeNode_two_ne (ph : ByteStr → Option Host) (a b : Bencode) :
    decodeNode ph (.list [a, b]) ≠ .error NodeInvalidList := by
  simp only [decodeNode]
  cases a with
  | bstr s =>
    cases hv : validUtf8 s with
    | true =>
      simp only [hv, if_true]
      cases hp : ph s with
      | some addr =>
        simp only [hp]
        cases b with
        | num p =>
          cases ht : toU16 p with
          | some port => simp [ht]
          | none => simp [ht]
        | bstr u => simp
        | list l => simp
        | dict d => simp
      | none => simp [hp]
    | false => simp [hv]
  | num n => simp
  | list l => simp
  | dict d => simp

/-- C7: a `nodes` entry fails with `NodeInvalidList` exactly when it is a
list whose length is not two; in a two-element entry the host byte string
gets distinct errors for invalid UTF8 (`NodeHostInvalidUtf8`) and for a
host-syntax parse failure (`NodeHostParseError`), and a port integer inside
the unsigned 16-bit range succeeds while any integer outside 0..65535 is
`NodePortOutOfRange`. -/
theorem C7_node_parsing :
    (∀ (ph : ByteStr → Option Host) b, decodeNode ph b = .error NodeInvalidList ↔
       ∃ l, b = .list l ∧ l.length ≠ 2) ∧
    (∀ (ph : ByteStr → Option Host) s p, validUtf8 s = false →
       decodeNode ph (.list [.bstr s, p]) = .error NodeHostInvalidUtf8) ∧
    (∀ (ph : ByteStr → Option Host) s p, validUtf8 s = true → ph s = none →
       decodeNode ph (.list [.bstr s, p]) = .error NodeHostParseError) ∧
    (∀ (ph : ByteStr → Option Host) s h n, validUtf8 s = true → ph s = some h →
       0 ≤ n → n < 65536 →
       decodeNode ph (.list [.bstr s, .num n]) = .ok (h, n.toNat)) ∧
    (∀ (ph : ByteStr → Option Host) s h n, validUtf8 s = true → ph s = some h →
       ¬ (0 ≤ n ∧ n < 65536) →
       decodeNode ph (.list [.bstr s, .num n]) = .error NodePortOutOfRange) := by
  refine ⟨?_, ?_, ?_, ?_, ?_⟩
  · intro ph b
    constructor
    · intro h
      cases b with
      | list l =>
        refine ⟨l, rfl, ?_⟩
        rcases l with - | ⟨a, l⟩
        · simp
        rcases l with - | ⟨b', l⟩
        · simp
        rcases l with - | ⟨c, l⟩
        · exact absurd h (decodeNode_two_ne ph a b')
        · simp
      | bstr s => simp [decodeNode] at h
      | num n => simp [decodeNode] at h
      | dict d => simp [decodeNode] at h
    · rintro ⟨l, rfl, hlen⟩
      rcases l with - | ⟨a, l⟩
      · rfl
      rcases l with - | ⟨b', l⟩
      · rfl
      rcases l with - | ⟨c, l⟩
      · exact absurd rfl hlen
      · rfl
  · intro ph s p hv
    simp [decodeNode, hv]
  · intro ph s p hv hp
    simp [decodeNode, hv, hp]
  · intro ph s h n hv hp h0 hlt
    simp [decodeNode, hv, hp, toU16, h0, hlt]
  · intro ph s h n hv hp hno
    simp [decodeNode, hv, hp, toU16, hno]

/-! ## C8: digest contract -/

/-- Each of the sixteen hex digit values renders as a lowercase hex
character. -/
theorem hexDigitChar_mem (n : Nat) (h : n < 16) : hexDigitChar n ∈ lowerHexChars := by
  interval_cases n <;> decide

/-- Both characters of one byte's hex rendering are lowercase hex digits. -/
theorem byteHex_mem {b : Nat} (hb : b < 256) : ∀ c ∈ byteHex b, c ∈ lowerHexChars := by
  intro c hc
  simp only [byteHex, List.mem_cons, List.not_mem_nil, or_false] at hc
  rcases hc with hc | hc <;> subst hc
  · exact hexDigitChar_mem _ (by omega)
  · exact hexDigitChar_mem _ (by omega)

/-- The hex rendering has two characters per byte. -/
theorem flatMap_byteHex_length : ∀ s : ByteStr, (s.flatMap byteHex).length = 2 * s.length := by
  intro s
  induction s with
  | nil => rfl
  | cons b t ih =>
    simp only [List.flatMap_cons, List.length_append, ih, List.length_cons, byteHex,
      List.length_nil]
    ring

/-- C8: `Sha1Hash::from_buffer` succeeds exactly on 20-byte inputs, storing
the bytes verbatim; any other length fails with the invalid-length error
carrying the actual length; and the debug rendering of a constructed digest
is exactly 40 characters, the per-byte two-character lowercase hex chunks
concatenated with no separators. -/
theorem C8_digest_contract :
    (∀ s : ByteStr, (∃ h, Sha1Hash.from_buffer s = .ok h) ↔ s.length = 20) ∧
    (∀ s h, Sha1Hash.from_buffer s = .ok h → h.hash = s) ∧
    (∀ s : ByteStr, s.length ≠ 20 → Sha1Hash.from_buffer s = .error ⟨s.length⟩) ∧
    (∀ s h, Sha1Hash.from_buffer s = .ok h → (∀ b ∈ s, b < 256) →
       (Sha1Hash.debugHex h).length = 40 ∧
       Sha1Hash.debugHex h = (s.map byteHex).flatten ∧
       (∀ b ∈ s, (byteHex b).length = 2) ∧
       ∀ c ∈ Sha1Hash.debugHex h, c ∈ lowerHexChars) := by
  have hbuf : ∀ s h, Sha1Hash.from_buffer s = .ok h → h.hash = s := by
    intro s h hh
    rw [Sha1Hash.from_buffer] at hh
    split at hh
    · injection hh with e; subst e; rfl
    · cases hh
  have hlen : ∀ s h, Sha1Hash.from_buffer s = .ok h → s.length = 20 := by
    intro s h hh
    rw [Sha1Hash.from_buffer] at hh
    split at hh
    · assumption
    · cases hh
  refine ⟨?_, hbuf, ?_, ?_⟩
  · intro s
    constructor
    · rintro ⟨h, hh⟩; exact hlen s h hh
    · intro h20; exact ⟨⟨s⟩, by rw [Sha1Hash.from_buffer, if_pos h20]⟩
  · intro s hne
    rw [Sha1Hash.from_buffer, if_neg hne]
  · intro s h hh hb
    have e := hbuf s h hh
    have l20 := hlen s h hh
    refine ⟨?_, ?_, ?_, ?_⟩
    · rw [Sha1Hash.debugHex, e, flatMap_byteHex_length, l20]
    · rw [Sha1Hash.debugHex, e, List.flatMap_def]
    · intro b hbs; rfl
    · intro c hc
      rw [Sha1Hash.debugHex, e] at hc
      rw [List.mem_flatMap] at hc
      obtain ⟨b, hbs, hcb⟩ := hc
      exact byteHex_mem (hb b hbs) c hcb

/-! ## C3: multi-file tree construction -/

/-- C3: each `files` entry must be a dictionary (else `FileInfoNotADict`)
with a required `length` (absence is `FileLengthNotPresent`) and a
non-empty `path` (an empty path list is `EmptyFilePath`); descending
through a path component that names an existing file child fails with
`DuplicateFileName`, as does inserting the final leaf over any existing
child; and the spec's two-entry example — which shares the lazily created
directory `d` between both entries — builds the directory `d` holding
`e.txt` of size 5 and `f.txt` of size 7. -/
theorem C3_multi_file_tree :
    decodeContents exInfoC3 = .ok exTreeC3 ∧
    (∀ b rest acc, (∀ d, b ≠ .dict d) →
       buildFileTree (b :: rest) acc = .error FileInfoNotADict) ∧
    (∀ fi rest acc, lookupBD fi keyLength = none →
       buildFileTree (.dict fi :: rest) acc = .error FileLengthNotPresent) ∧
    (∀ fi rest acc flen, decodeFileLength fi = .ok flen →
       lookupBD fi keyPath = some (.list []) →
       buildFileTree (.dict fi :: rest) acc = .error EmptyFilePath) ∧
    (∀ dir d sz nb rest flen, validUtf8 d = true →
       lookupKey dir d = some (.FileNode sz) →
       insertPath flen dir (.bstr d :: nb :: rest) = .error DuplicateFileName) ∧
    (∀ dir f node flen, validUtf8 f = true → lookupKey dir f = some node →
       insertPath flen dir [.bstr f] = .error DuplicateFileName) := by
  refine ⟨rfl, ?_, ?_, ?_, ?_, ?_⟩
  · intro b rest acc hnd
    cases b with
    | dict d => exact absurd rfl (hnd d)
    | bstr s => rfl
    | num n => rfl
    | list l => rfl
  · intro fi rest acc h
    simp only [buildFileTree, decodeFileLength, h]
  · intro fi rest acc flen hflen hpath
    simp only [buildFileTree, hflen, hpath, insertPath]
  · intro dir d sz nb rest flen hv hk
    simp [insertPath, decodeDirName, hv, hk]
  · intro dir f node flen hv hk
    simp [insertPath, decodeFileName, hv, hk]

end Dottorrent
